import Mathlib

/-!
Shallow embedding of the `dtln-rs` demo program (`src/main.rs`) and of the
build script (`build.rs`), together with a spec-modelled Block Accumulator
for the Deferred Processor (whose Rust source is not part of this
repository's two source files).

Samples are modelled as `Int` (PCM values); paths as `String`; the
filesystem as a partial map from paths to nodes.
-/

namespace Dtln

/-- The `const BLOCK_SIZE: usize = 1024;` item of `src/main.rs`. -/
def BLOCK_SIZE : Nat := 1024

/-- The `const EXPECTED_SAMPLE_RATE: u32 = 16000;` item of `src/main.rs`. -/
def EXPECTED_SAMPLE_RATE : Nat := 16000

/-! ## Rust `Path::extension` model -/

/-- Split a character list at every occurrence of `c` (the analogue of
`String.splitOn` for one-character separators, structurally recursive so
that it evaluates on concrete paths). -/
def splitOnChar (c : Char) : List Char → List (List Char)
  | [] => [[]]
  | x :: xs =>
    let r := splitOnChar c xs
    if x = c then [] :: r
    else
      match r with
      | [] => [[x]]
      | y :: ys => (x :: y) :: ys

/-- Last path component of a path string (Rust `Path::file_name`, modulo
separator normalisation: trailing separators are ignored). -/
def lastComponent (s : String) : List Char :=
  (((splitOnChar '/' s.toList).filter (fun c => c ≠ [])).getLastD s.toList)

/-- Extension of a single file-name component, following Rust's
`Path::extension` contract: `none` when there is no embedded `.` or the
name begins with `.` and has no other `.`; otherwise the portion after
the final `.` (possibly empty, as for `"foo."`). -/
def extensionOfName (name : List Char) : Option (List Char) :=
  match splitOnChar '.' name with
  | [] => none
  | [_] => none
  | [] :: [_] => none
  | parts => parts.getLast?

/-- Rust `Path::new(s).extension()` on the whole path string. -/
def rustExtension (s : String) : Option (List Char) :=
  let name := lastComponent s
  if name = ['.', '.'] then none else extensionOfName name

/-! ## Filesystem model -/

/-- A wav file as the demo observes it: its PCM samples and sample rate. -/
structure WavFile where
  samples : List Int
  sample_rate : Nat
  deriving Repr, DecidableEq

/-- A filesystem node: a regular file (openable, `metadata().is_file()`)
or a non-file node such as a directory (openable on Linux, but
`is_file()` returns false). -/
inductive FsNode where
  | file (w : WavFile)
  | dir
  deriving Repr, DecidableEq

/-- The filesystem: a partial map from path strings to nodes; `none`
means `File::open` fails (missing or unreadable). -/
def FileSystem : Type := String → Option FsNode

/-! ## `check_is_wav` (src/main.rs lines 65-82) -/

/-- How a call to `check_is_wav` terminates. Every non-`ok` constructor
is a Rust panic, which aborts the process with a non-zero exit code. -/
inductive CheckOutcome where
  | ok
  | panicOpen
  | panicNotFile
  | panicNoExtension
  | panicNotWav
  deriving Repr, DecidableEq

/-- The extension phase of `check_is_wav`:
`path.extension().unwrap()` followed by the `!= "wav"` comparison. -/
def extCheck (name : String) : CheckOutcome :=
  match rustExtension name with
  | none => .panicNoExtension
  | some e => if e = "wav".toList then .ok else .panicNotWav

/-- The function `check_is_wav(name, check_exists)` of `src/main.rs`: when
`check_exists` is set, `File::open(path).unwrap()` (panics if the path
cannot be opened) and the `metadata.is_file()` test (panics on a
non-file) run first; then `path.extension().unwrap()` and the
comparison with `"wav"`. -/
def check_is_wav (fs : FileSystem) (name : String) (check_exists : Bool) : CheckOutcome :=
  if check_exists then
    match fs name with
    | none => .panicOpen
    | some .dir => .panicNotFile
    | some (.file _) => extCheck name
  else extCheck name

/-! ## The processing loop of `main` (src/main.rs lines 40-57) -/

/-- The `ProcessingResult` returned by `DtlnDeferredProcessor::denoise`. -/
structure ProcessingResult where
  samples : List Int
  processor_starved : Bool
  deriving Repr, DecidableEq

/-- A denoise oracle: the behaviour of `processor.denoise` as the demo
observes it. `σ` is the processor's hidden state; `none` models an `Err`
return (propagated by `?`). -/
def Denoiser (σ : Type) : Type := σ → List Int → Option (ProcessingResult × σ)

/-- How the demo's processing loop terminates: normally with the
accumulated `output` vector and the final processor state, by the
`panic!("Processor starved")`, or by an `Err` from `denoise`
propagating out of `main`. -/
inductive LoopTerm (σ : Type) where
  | ok (output : List Int) (s : σ)
  | starved
  | derr
  deriving DecidableEq

/-- Whether the loop terminated in the starvation panic. -/
def LoopTerm.isStarved {σ : Type} : LoopTerm σ → Bool
  | .starved => true
  | _ => false

/-- Trace of one execution of the processing loop: the spans passed to
`denoise` in call order, the `ProcessingResult`s those calls returned
(in order), and how the loop terminated. -/
structure LoopTrace (σ : Type) where
  submitted : List (List Int)
  results : List ProcessingResult
  term : LoopTerm σ

/-- The `for i in (0..samples.len()).step_by(BLOCK_SIZE)` loop of `main`,
as structural recursion on the not-yet-visited suffix `rest =
samples[i..]`:
* `rest` empty — the loop ends (`i ≥ samples.len()`);
* `i + BLOCK_SIZE > samples.len()` (`rest.length < BLOCK_SIZE`) — the
  trailing partial span `samples[i..]` is denoised, its samples appended,
  and the loop `break`s without inspecting `processor_starved`;
* otherwise the full block `samples[i..i+BLOCK_SIZE]` is denoised; a
  starved result panics, otherwise its samples are appended and the loop
  continues at `i + BLOCK_SIZE`. -/
def procLoop {σ : Type} (d : Denoiser σ) (s : σ) (rest : List Int) : LoopTrace σ :=
  if rest = [] then ⟨[], [], .ok [] s⟩
  else if rest.length < BLOCK_SIZE then
    match d s rest with
    | none => ⟨[rest], [], .derr⟩
    | some (r, s1) => ⟨[rest], [r], .ok r.samples s1⟩
  else
    match d s (rest.take BLOCK_SIZE) with
    | none => ⟨[rest.take BLOCK_SIZE], [], .derr⟩
    | some (r, s1) =>
      if r.processor_starved then ⟨[rest.take BLOCK_SIZE], [r], .starved⟩
      else
        let t := procLoop d s1 (rest.drop BLOCK_SIZE)
        ⟨rest.take BLOCK_SIZE :: t.submitted, r :: t.results,
         match t.term with
         | .ok out s2 => .ok (r.samples ++ out) s2
         | .starved => .starved
         | .derr => .derr⟩
termination_by rest.length
decreasing_by
  simp only [List.length_drop, BLOCK_SIZE] at *
  omega

/-- The block partition the loop walks: consecutive `BLOCK_SIZE`-sample
spans in index order, with one final shorter span when the length is not
a multiple of `BLOCK_SIZE`. -/
def chunks (l : List Int) : List (List Int) :=
  if l = [] then []
  else if l.length < BLOCK_SIZE then [l]
  else l.take BLOCK_SIZE :: chunks (l.drop BLOCK_SIZE)
termination_by l.length
decreasing_by
  simp only [List.length_drop, BLOCK_SIZE] at *
  omega

/-! ## `main` (src/main.rs lines 19-62) -/

/-- The wav write performed at the end of a successful run
(`write_pcm32_to_wav(output, &output_name, EXPECTED_SAMPLE_RATE)`). -/
structure WavWrite where
  path : String
  samples : List Int
  sample_rate : Nat
  deriving Repr, DecidableEq

/-- How the demo process terminates. `usageExit` is
`std::process::exit(1)` after the usage message; `checkPanic` is a panic
inside `check_is_wav`; `starvedPanic` is `panic!("Processor starved")`;
`denoiseErr` is an `Err` from `denoise` propagated out of `main`;
`success` carries the wav file written. -/
inductive MainOutcome where
  | usageExit
  | checkPanic (c : CheckOutcome)
  | starvedPanic
  | denoiseErr
  | success (w : WavWrite)
  deriving Repr, DecidableEq

/-- Observable side effects of a run of `main`: the spans submitted to
`denoise`, the results received, how many times `processor.stop()` ran,
and whether `read_wav_to_pcm32` was invoked at all. -/
structure MainTrace where
  submitted : List (List Int)
  results : List ProcessingResult
  stop_calls : Nat
  read_input : Bool

/-- The call `read_wav_to_pcm32(&input_name, &mut samples)`: the samples the
demo ends up with in `samples` (the returned sample rate is bound to
`_sample_rate` and never used). -/
def readWav (fs : FileSystem) (name : String) : List Int :=
  match fs name with
  | some (.file w) => w.samples
  | _ => []

/-- The function `main()` of `src/main.rs`, parametrised by the argument vector
(`args.getD 0` is the program name), the filesystem, and the denoise
oracle with its initial state:
1. `std::env::args().count() != 3` → usage message, `exit(1)`;
2. `check_is_wav(&input_name, true)`, then `check_is_wav(&output_name,
   false)` — any panic aborts before the wav is read;
3. `read_wav_to_pcm32`, the processing loop, `processor.stop()`, and
   `write_pcm32_to_wav(output, &output_name, EXPECTED_SAMPLE_RATE)`. -/
def mainRun {σ : Type} (args : List String) (fs : FileSystem) (d : Denoiser σ) (s0 : σ) :
    MainOutcome × MainTrace :=
  if args.length ≠ 3 then (.usageExit, ⟨[], [], 0, false⟩)
  else
    let input_name := args.getD 1 ""
    match check_is_wav fs input_name true with
    | .ok =>
      let output_name := args.getD 2 ""
      match check_is_wav fs output_name false with
      | .ok =>
        let samples := readWav fs input_name
        let t := procLoop d s0 samples
        match t.term with
        | .ok out _ =>
            (.success ⟨output_name, out, EXPECTED_SAMPLE_RATE⟩,
             ⟨t.submitted, t.results, 1, true⟩)
        | .starved => (.starvedPanic, ⟨t.submitted, t.results, 0, true⟩)
        | .derr => (.denoiseErr, ⟨t.submitted, t.results, 0, true⟩)
      | c => (.checkPanic c, ⟨[], [], 0, false⟩)
    | c => (.checkPanic c, ⟨[], [], 0, false⟩)

/-! ## Lemmas about `chunks` -/

theorem chunks_flatten (l : List Int) : (chunks l).flatten = l := by
  induction l using chunks.induct with
  | case1 => simp [chunks]
  | case2 l h1 h2 => rw [chunks]; simp [h1, h2]
  | case3 l h1 h2 ih => rw [chunks]; simp [h1, h2, ih]

theorem chunks_ne_nil (l : List Int) (h : l ≠ []) : chunks l ≠ [] := by
  rw [chunks]
  split
  · exact absurd (by assumption) h
  · split <;> simp

theorem getLastD_default_irrel {α : Type} (l : List α) (h : l ≠ []) (a b : α) :
    l.getLastD a = l.getLastD b := by
  cases l with
  | nil => exact absurd rfl h
  | cons x t => rw [List.getLastD_cons, List.getLastD_cons]

theorem chunks_mem_length (l : List Int) :
    ∀ c ∈ chunks l, c.length ≤ BLOCK_SIZE ∧ c ≠ [] := by
  induction l using chunks.induct with
  | case1 => simp [chunks]
  | case2 l h1 h2 =>
    rw [chunks]
    simp only [if_neg h1, if_pos h2, List.mem_singleton]
    rintro c rfl
    exact ⟨Nat.le_of_lt h2, h1⟩
  | case3 l h1 h2 ih =>
    rw [chunks]
    simp only [if_neg h1, if_neg h2, List.mem_cons]
    rintro c (rfl | hc)
    · refine ⟨by simp only [List.length_take]; omega, ?_⟩
      intro hnil
      rcases List.take_eq_nil_iff.mp hnil with hB | hl
      · exact absurd hB (by simp [BLOCK_SIZE])
      · exact h1 hl
    · exact ih c hc

theorem chunks_dropLast_length (l : List Int) :
    ∀ c ∈ (chunks l).dropLast, c.length = BLOCK_SIZE := by
  induction l using chunks.induct with
  | case1 => simp [chunks]
  | case2 l h1 h2 => rw [chunks]; simp [h1, h2]
  | case3 l h1 h2 ih =>
    rw [chunks]
    simp only [if_neg h1, if_neg h2]
    by_cases hd : l.drop BLOCK_SIZE = []
    · simp [hd, chunks]
    · rw [List.dropLast_cons_of_ne_nil (chunks_ne_nil _ hd)]
      intro c hc
      rcases List.mem_cons.mp hc with rfl | hc
      · simp only [List.length_take, BLOCK_SIZE] at h2 ⊢
        omega
      · exact ih c hc

theorem chunks_mod_zero (l : List Int) :
    l.length % BLOCK_SIZE = 0 → ∀ c ∈ chunks l, c.length = BLOCK_SIZE := by
  induction l using chunks.induct with
  | case1 => intro _ c hc; rw [chunks] at hc; simp at hc
  | case2 l h1 h2 =>
    intro h c hc
    rw [chunks] at hc
    simp only [if_neg h1, if_pos h2, List.mem_singleton] at hc
    subst hc
    simp only [BLOCK_SIZE] at h h2
    exact absurd (List.length_eq_zero.mp (by omega)) h1
  | case3 l h1 h2 ih =>
    intro h c hc
    rw [chunks] at hc
    simp only [if_neg h1, if_neg h2, List.mem_cons] at hc
    rcases hc with rfl | hc
    · simp only [List.length_take, BLOCK_SIZE] at h2 ⊢
      omega
    · refine ih ?_ c hc
      simp only [List.length_drop, BLOCK_SIZE] at h h2 ⊢
      omega

theorem chunks_last_length (l : List Int) :
    l.length % BLOCK_SIZE ≠ 0 →
    ((chunks l).getLastD []).length = l.length % BLOCK_SIZE := by
  induction l using chunks.induct with
  | case1 => intro h; simp [BLOCK_SIZE] at h
  | case2 l h1 h2 =>
    intro h
    rw [chunks]
    simp only [if_neg h1, if_pos h2]
    show l.length = l.length % BLOCK_SIZE
    simp only [BLOCK_SIZE] at h2 ⊢
    omega
  | case3 l h1 h2 ih =>
    intro h
    rw [chunks]
    simp only [if_neg h1, if_neg h2]
    have hmod : (l.drop BLOCK_SIZE).length % BLOCK_SIZE = l.length % BLOCK_SIZE := by
      simp only [List.length_drop, BLOCK_SIZE] at h2 ⊢
      omega
    have hd : l.drop BLOCK_SIZE ≠ [] := by
      intro hdrop
      rw [List.drop_eq_nil_iff] at hdrop
      simp only [BLOCK_SIZE] at h h2 hdrop
      omega
    rw [List.getLastD_cons, getLastD_default_irrel _ (chunks_ne_nil _ hd),
        ih (by rw [hmod]; exact h), hmod]

/-! ## Lemmas about `procLoop` -/

theorem procLoop_nil {σ : Type} (d : Denoiser σ) (s : σ) :
    procLoop d s [] = ⟨[], [], .ok [] s⟩ := by
  rw [procLoop]
  simp

theorem procLoop_partial_none {σ : Type} (d : Denoiser σ) (s : σ) (rest : List Int)
    (h1 : rest ≠ []) (h2 : rest.length < BLOCK_SIZE) (hx : d s rest = none) :
    procLoop d s rest = ⟨[rest], [], .derr⟩ := by
  rw [procLoop]
  simp only [if_neg h1, if_pos h2, hx]

theorem procLoop_partial_some {σ : Type} (d : Denoiser σ) (s : σ) (rest : List Int)
    (r : ProcessingResult) (s1 : σ)
    (h1 : rest ≠ []) (h2 : rest.length < BLOCK_SIZE) (hx : d s rest = some (r, s1)) :
    procLoop d s rest = ⟨[rest], [r], .ok r.samples s1⟩ := by
  rw [procLoop]
  simp only [if_neg h1, if_pos h2, hx]

theorem procLoop_not_nil (rest : List Int) (h2 : ¬ rest.length < BLOCK_SIZE) :
    rest ≠ [] := by
  intro h
  subst h
  simp [BLOCK_SIZE] at h2

theorem procLoop_full_none {σ : Type} (d : Denoiser σ) (s : σ) (rest : List Int)
    (h2 : ¬ rest.length < BLOCK_SIZE) (hx : d s (rest.take BLOCK_SIZE) = none) :
    procLoop d s rest = ⟨[rest.take BLOCK_SIZE], [], .derr⟩ := by
  rw [procLoop]
  simp only [if_neg (procLoop_not_nil rest h2), if_neg h2, hx]

theorem procLoop_full_starved {σ : Type} (d : Denoiser σ) (s : σ) (rest : List Int)
    (r : ProcessingResult) (s1 : σ)
    (h2 : ¬ rest.length < BLOCK_SIZE) (hx : d s (rest.take BLOCK_SIZE) = some (r, s1))
    (hr : r.processor_starved = true) :
    procLoop d s rest = ⟨[rest.take BLOCK_SIZE], [r], .starved⟩ := by
  rw [procLoop]
  simp only [if_neg (procLoop_not_nil rest h2), if_neg h2, hx, hr, if_pos]

theorem procLoop_full_cont {σ : Type} (d : Denoiser σ) (s : σ) (rest : List Int)
    (r : ProcessingResult) (s1 : σ)
    (h2 : ¬ rest.length < BLOCK_SIZE) (hx : d s (rest.take BLOCK_SIZE) = some (r, s1))
    (hr : r.processor_starved = false) :
    procLoop d s rest =
      ⟨rest.take BLOCK_SIZE :: (procLoop d s1 (rest.drop BLOCK_SIZE)).submitted,
       r :: (procLoop d s1 (rest.drop BLOCK_SIZE)).results,
       match (procLoop d s1 (rest.drop BLOCK_SIZE)).term with
       | .ok out s2 => .ok (r.samples ++ out) s2
       | .starved => .starved
       | .derr => .derr⟩ := by
  rw [procLoop]
  simp only [if_neg (procLoop_not_nil rest h2), if_neg h2, hx, hr]
  simp

/-- On a successful run the loop submits exactly the `chunks` partition,
receives one result per submitted span, and the final `output` is the
concatenation of the results' `samples` in call order. -/
theorem procLoop_ok {σ : Type} (d : Denoiser σ) (s : σ) (rest : List Int) :
    ∀ out s2, (procLoop d s rest).term = .ok out s2 →
      (procLoop d s rest).submitted = chunks rest ∧
      (procLoop d s rest).results.length = (procLoop d s rest).submitted.length ∧
      out = ((procLoop d s rest).results.map (fun r => r.samples)).flatten := by
  induction s, rest using procLoop.induct with
  | d => exact d
  | case1 s =>
    intro out s2 h
    rw [procLoop_nil] at h ⊢
    cases h
    simp [chunks]
  | case2 s rest h1 h2 hx =>
    intro out s2 h
    rw [procLoop_partial_none d s rest h1 h2 hx] at h
    cases h
  | case3 s rest h1 h2 r s1 hx =>
    intro out s2 h
    rw [procLoop_partial_some d s rest r s1 h1 h2 hx] at h ⊢
    cases h
    rw [chunks]
    simp [h1, h2]
  | case4 s rest h1 h2 hx =>
    intro out s2 h
    rw [procLoop_full_none d s rest h2 hx] at h
    cases h
  | case5 s rest h1 h2 r s1 hx hr =>
    intro out s2 h
    rw [procLoop_full_starved d s rest r s1 h2 hx hr] at h
    cases h
  | case6 s rest h1 h2 r s1 hx hr ih =>
    intro out s2 h
    have hr2 : r.processor_starved = false := by
      simpa using hr
    rw [procLoop_full_cont d s rest r s1 h2 hx hr2] at h ⊢
    dsimp only at h ⊢
    cases ht : (procLoop d s1 (rest.drop BLOCK_SIZE)).term with
    | ok out1 s3 =>
      rw [ht] at h
      obtain ⟨hsub, hlen, hout⟩ := ih out1 s3 ht
      cases h
      refine ⟨?_, by simp [hlen], by simp [hout]⟩
      rw [chunks, if_neg h1, if_neg h2, hsub]
    | starved => rw [ht] at h; cases h
    | derr => rw [ht] at h; cases h

/-- A full-block result with `processor_starved` set terminates the loop
in the starvation panic immediately: it is the last result received and
the last span submitted. -/
theorem procLoop_starved_stops {σ : Type} (d : Denoiser σ) (s : σ) (rest : List Int) :
    ∀ i, i < (procLoop d s rest).results.length →
      ((procLoop d s rest).submitted.getD i []).length = BLOCK_SIZE →
      ((procLoop d s rest).results.getD i ⟨[], false⟩).processor_starved = true →
      (procLoop d s rest).term = .starved ∧
      i + 1 = (procLoop d s rest).results.length ∧
      i + 1 = (procLoop d s rest).submitted.length := by
  induction s, rest using procLoop.induct with
  | d => exact d
  | case1 s =>
    intro i hi
    rw [procLoop_nil] at hi
    simp at hi
  | case2 s rest h1 h2 hx =>
    intro i hi
    rw [procLoop_partial_none d s rest h1 h2 hx] at hi
    simp at hi
  | case3 s rest h1 h2 r s1 hx =>
    intro i hi hlen
    rw [procLoop_partial_some d s rest r s1 h1 h2 hx] at hi hlen
    simp only [List.length_singleton] at hi
    have : i = 0 := by omega
    subst this
    simp only [List.getD_cons_zero] at hlen
    omega
  | case4 s rest h1 h2 hx =>
    intro i hi
    rw [procLoop_full_none d s rest h2 hx] at hi
    simp at hi
  | case5 s rest h1 h2 r s1 hx hr =>
    intro i hi _ _
    rw [procLoop_full_starved d s rest r s1 h2 hx hr] at hi ⊢
    simp only [List.length_singleton] at hi ⊢
    have : i = 0 := by omega
    subst this
    simp
  | case6 s rest h1 h2 r s1 hx hr ih =>
    intro i hi hlen hst
    have hr2 : r.processor_starved = false := by
      simpa using hr
    rw [procLoop_full_cont d s rest r s1 h2 hx hr2] at hi hlen hst ⊢
    dsimp only at hi hlen hst ⊢
    cases i with
    | zero =>
      rw [List.getD_cons_zero] at hst
      rw [hr2] at hst
      cases hst
    | succ j =>
      rw [List.getD_cons_succ] at hlen hst
      simp only [List.length_cons] at hi
      obtain ⟨hterm, hres, hsub⟩ := ih j (by omega) hlen hst
      rw [hterm]
      exact ⟨rfl, by simp [← hres], by simp [← hsub]⟩

/-! ## Lemmas about `mainRun` -/

/-- Whether the outcome is a panic raised inside `check_is_wav`
(a non-zero process exit). -/
def MainOutcome.isCheckPanic : MainOutcome → Bool
  | .checkPanic _ => true
  | _ => false

/-- Replace the sample rate recorded in the file at path `p`, leaving
everything else (including that file's samples) unchanged. -/
def setRate (fs : FileSystem) (p : String) (rate : Nat) : FileSystem :=
  fun q =>
    if q = p then
      match fs q with
      | some (.file w) => some (.file ⟨w.samples, rate⟩)
      | o => o
    else fs q

theorem check_is_wav_setRate (fs : FileSystem) (p : String) (rate : Nat)
    (name : String) (b : Bool) :
    check_is_wav (setRate fs p rate) name b = check_is_wav fs name b := by
  unfold check_is_wav setRate
  cases b
  · rfl
  · simp only
    by_cases hq : name = p
    · subst hq
      cases hfs : fs name with
      | none => simp [hfs]
      | some n => cases n <;> simp [hfs]
    · simp [hq]

theorem readWav_setRate (fs : FileSystem) (p : String) (rate : Nat) (name : String) :
    readWav (setRate fs p rate) name = readWav fs name := by
  unfold readWav setRate
  by_cases hq : name = p
  · subst hq
    cases hfs : fs name with
    | none => simp [hfs]
    | some n => cases n <;> simp [hfs]
  · simp [hq]

/-- Inversion of a successful run: the checks passed, the wav was read,
the loop ended normally, `stop` ran once, and the write used the
loop output, the output path and `EXPECTED_SAMPLE_RATE`. -/
theorem mainRun_success_inv {σ : Type} (args : List String) (fs : FileSystem)
    (d : Denoiser σ) (s0 : σ) (w : WavWrite)
    (hs : (mainRun args fs d s0).1 = .success w) :
    ∃ s2, (procLoop d s0 (readWav fs (args.getD 1 ""))).term = .ok w.samples s2 ∧
      w.sample_rate = EXPECTED_SAMPLE_RATE ∧
      w.path = args.getD 2 "" ∧
      (mainRun args fs d s0).2.submitted
        = (procLoop d s0 (readWav fs (args.getD 1 ""))).submitted ∧
      (mainRun args fs d s0).2.results
        = (procLoop d s0 (readWav fs (args.getD 1 ""))).results ∧
      (mainRun args fs d s0).2.stop_calls = 1 ∧
      (mainRun args fs d s0).2.read_input = true := by
  by_cases h3 : args.length ≠ 3
  · unfold mainRun at hs
    rw [if_pos h3] at hs
    simp at hs
  · unfold mainRun at hs ⊢
    rw [if_neg h3] at hs ⊢
    dsimp only at hs ⊢
    cases hc1 : check_is_wav fs (args.getD 1 "") true with
    | ok =>
      rw [hc1] at hs
      dsimp only at hs ⊢
      cases hc2 : check_is_wav fs (args.getD 2 "") false with
      | ok =>
        rw [hc2] at hs
        dsimp only at hs ⊢
        cases ht : (procLoop d s0 (readWav fs (args.getD 1 ""))).term with
        | ok out s2 =>
          rw [ht] at hs
          dsimp only at hs ⊢
          cases hs
          exact ⟨s2, rfl, rfl, rfl, rfl, rfl, rfl, rfl⟩
        | starved => rw [ht] at hs; cases hs
        | derr => rw [ht] at hs; cases hs
      | panicOpen => rw [hc2] at hs; cases hs
      | panicNotFile => rw [hc2] at hs; cases hs
      | panicNoExtension => rw [hc2] at hs; cases hs
      | panicNotWav => rw [hc2] at hs; cases hs
    | panicOpen => rw [hc1] at hs; cases hs
    | panicNotFile => rw [hc1] at hs; cases hs
    | panicNoExtension => rw [hc1] at hs; cases hs
    | panicNotWav => rw [hc1] at hs; cases hs

/-- With `check_exists = false` the call is exactly the extension phase. -/
theorem check_is_wav_false (fs : FileSystem) (name : String) :
    check_is_wav fs name false = extCheck name := rfl

theorem extCheck_ok (name : String) (h : extCheck name = .ok) :
    rustExtension name = some ("wav".toList) := by
  unfold extCheck at h
  cases he : rustExtension name with
  | none => rw [he] at h; cases h
  | some e =>
    rw [he] at h
    dsimp only at h
    by_cases hw : e = "wav".toList
    · rw [hw]
    · rw [if_neg hw] at h; cases h

theorem check_is_wav_ok_true (fs : FileSystem) (name : String)
    (h : check_is_wav fs name true = .ok) :
    fs name ≠ none ∧ fs name ≠ some .dir ∧ rustExtension name = some ("wav".toList) := by
  unfold check_is_wav at h
  rw [if_pos rfl] at h
  cases hfs : fs name with
  | none => rw [hfs] at h; cases h
  | some n =>
    cases n with
    | dir => rw [hfs] at h; cases h
    | file w =>
      rw [hfs] at h
      exact ⟨by simp [hfs], by simp [hfs], extCheck_ok name h⟩

/-! ## Concrete fixtures used by witness instantiations -/

/-- A denoiser that echoes the span back, never starved. -/
def okDenoiser : Denoiser Unit := fun _ sp => some (⟨sp, false⟩, ())

/-- A denoiser that echoes the span back and always reports starvation. -/
def starveDenoiser : Denoiser Unit := fun _ sp => some (⟨sp, true⟩, ())

/-- A filesystem with a single three-sample input wav at `"in.wav"`. -/
def demoFs : FileSystem :=
  fun p => if p = "in.wav" then some (.file ⟨[3, 1, 2], 44100⟩) else none

/-- A filesystem with a single empty input wav at `"empty.wav"`. -/
def emptyWavFs : FileSystem :=
  fun p => if p = "empty.wav" then some (.file ⟨[], 44100⟩) else none

/-- The empty filesystem. -/
def emptyFs : FileSystem := fun _ => none

/-! ## Spec-modelled Deferred Processor block accumulation (for C2)

The Rust `DtlnDeferredProcessor` / `DtlnProcessEngine` sources are not
among this repository's two source files (`src/main.rs` only calls them,
`build.rs` only links the native library), so the block accumulation is
modelled from the spec here. -/

/-- Modelled from the spec: the missing `DtlnDeferredProcessor` input
accumulation, §4.2 step 2 — "While pending-input length ≥ block size:
removes one block-size prefix, submits it to the worker channel".
Returns the submitted blocks in order and the remaining pending input. -/
def splitBlocks (buf : List Int) : List (List Int) × List Int :=
  if buf.length < BLOCK_SIZE then ([], buf)
  else
    let t := splitBlocks (buf.drop BLOCK_SIZE)
    (buf.take BLOCK_SIZE :: t.1, t.2)
termination_by buf.length
decreasing_by
  simp only [List.length_drop, BLOCK_SIZE] at *
  omega

/-- Modelled from the spec: the missing `denoise(span)` input side, §4.2
step 1 then step 2 — "Appends `span` to the pending-input buffer",
then forwards every complete block. -/
def accumDenoise (pending span : List Int) : List (List Int) × List Int :=
  splitBlocks (pending ++ span)

/-- Modelled from the spec: the missing `stop()` flush, §4.3 — "on
`stop()`, any pending-input shorter than one block is zero-padded to
full block length, submitted". An empty pending buffer submits
nothing. -/
def stopFlush (pending : List Int) : List (List Int) :=
  if pending = [] then []
  else [pending ++ List.replicate (BLOCK_SIZE - pending.length) 0]

/-- Modelled from the spec: a whole streaming run of the missing
Deferred Processor — each `denoise(span)` call in order threading the
pending buffer, collecting every block submitted to the Inference
Engine worker. -/
def deferredRun (spans : List (List Int)) (pending : List Int) :
    List (List Int) × List Int :=
  match spans with
  | [] => ([], pending)
  | sp :: restSpans =>
    let step := accumDenoise pending sp
    let t := deferredRun restSpans step.2
    (step.1 ++ t.1, t.2)

/-- Every block the Inference Engine sees across a whole run: the blocks
forwarded by the `denoise` calls, then the zero-padded tail submitted by
`stop()`. -/
def allSubmittedBlocks (spans : List (List Int)) : List (List Int) :=
  (deferredRun spans []).1 ++ stopFlush (deferredRun spans []).2

theorem splitBlocks_fst (buf : List Int) :
    ∀ b ∈ (splitBlocks buf).1, b.length = BLOCK_SIZE := by
  induction buf using splitBlocks.induct with
  | case1 buf h => rw [splitBlocks, if_pos h]; simp
  | case2 buf h ih =>
    rw [splitBlocks, if_neg h]
    dsimp only
    intro b hb
    rcases List.mem_cons.mp hb with rfl | hb
    · simp only [List.length_take, BLOCK_SIZE] at h ⊢
      omega
    · exact ih b hb

theorem splitBlocks_snd (buf : List Int) :
    (splitBlocks buf).2.length < BLOCK_SIZE := by
  induction buf using splitBlocks.induct with
  | case1 buf h => rw [splitBlocks, if_pos h]; exact h
  | case2 buf h ih => rw [splitBlocks, if_neg h]; exact ih

theorem deferredRun_fst (spans : List (List Int)) :
    ∀ pending, ∀ b ∈ (deferredRun spans pending).1, b.length = BLOCK_SIZE := by
  induction spans with
  | nil => intro pending b hb; simp [deferredRun] at hb
  | cons sp restSpans ih =>
    intro pending b hb
    unfold deferredRun at hb
    dsimp only at hb
    rcases List.mem_append.mp hb with hb | hb
    · exact splitBlocks_fst _ b hb
    · exact ih _ b hb

theorem deferredRun_snd (spans : List (List Int)) :
    ∀ pending, pending.length < BLOCK_SIZE →
      (deferredRun spans pending).2.length < BLOCK_SIZE := by
  induction spans with
  | nil => intro pending h; exact h
  | cons sp restSpans ih =>
    intro pending _
    unfold deferredRun
    dsimp only
    exact ih _ (splitBlocks_snd _)

theorem stopFlush_mem (pending : List Int) (hlt : pending.length < BLOCK_SIZE) :
    ∀ b ∈ stopFlush pending, b.length = BLOCK_SIZE := by
  unfold stopFlush
  split
  · simp
  · intro b hb
    rcases List.mem_singleton.mp hb with rfl
    simp only [List.length_append, List.length_replicate]
    omega

end Dtln

/-! ## The build script `build.rs` -/

namespace BuildRs

/-- Target architecture, as `build_target::Arch` distinguishes them in
`build.rs`. -/
inductive Arch where
  | x86_64
  | aarch64
  | wasm32
  | otherArch
  deriving Repr, DecidableEq

/-- Target operating system, as `build_target::Os` distinguishes them in
`build.rs`. -/
inductive Os where
  | windows
  | macos
  | linux
  | otherOs
  deriving Repr, DecidableEq

/-- The `match (target_os, target_arch)` table of `build.rs` choosing
the designated prebuilt archive, `None` when the platform has none. -/
def archive_name : Os → Arch → Option String
  | .windows, .x86_64 => some ("tflite-prebuilt.win.x64.tar.bz2")
  | .windows, .aarch64 => some ("tflite-prebuilt.win.arm64.tar.bz2")
  | .macos, .x86_64 => some ("tflite-prebuilt.osx.x64.tar.bz2")
  | .macos, .aarch64 => some ("tflite-prebuilt.osx.arm64.tar.bz2")
  | .linux, .x86_64 => some ("tflite-prebuilt.linux.x64.tar.bz2")
  | .linux, .aarch64 => some ("tflite-prebuilt.linux.arm64.tar.bz2")
  | _, .wasm32 => some ("tflite-prebuilt.wasm.tar.bz2")
  | _, _ => none

/-- Result of Rust `Command::status()`: `err` when the process could not
be spawned at all, `ok code` when the process ran to completion and
exited with status `code` (possibly non-zero). -/
inductive SpawnResult where
  | err
  | ok (code : Int)
  deriving Repr, DecidableEq

/-- The build environment `build.rs` observes: which files exist, and
what spawning `tar -xjf <archive> -C ./tflite/` yields. -/
structure BuildEnv where
  archiveExists : String → Bool
  tar : SpawnResult

/-- What the prebuilt-acquisition phase of `build.rs` did. -/
structure BuildTrace where
  extractionAttempted : Bool
  cmakeCalled : Bool
  deriving Repr, DecidableEq

/-- The prebuilt-acquisition phase of `fn main()` in `build.rs`: when a
prebuilt archive is designated and the archive file exists, run `tar`;
`build_with_cmake()` runs only when the `tar` spawn itself returned
`Err` (`extract_result.is_err()`), when the archive file is absent, or
when no archive is designated for the platform. The exit status of a
`tar` process that did run is never inspected. -/
def buildMain (os : Os) (arch : Arch) (env : BuildEnv) : BuildTrace :=
  match archive_name os arch with
  | some archive =>
    if env.archiveExists ("./tflite/" ++ archive) then
      match env.tar with
      | .err => ⟨true, true⟩
      | .ok _ => ⟨true, false⟩
    else ⟨false, true⟩
  | none => ⟨false, true⟩

end BuildRs

/-- C8: The configured block size equals the fixed constant 1024 samples
and the expected sample rate equals the fixed constant 16000 Hz, both
fixed at build time as `const` items in `src/main.rs`. -/
theorem c8_constants : Dtln.BLOCK_SIZE = 1024 ∧ Dtln.EXPECTED_SAMPLE_RATE = 16000 :=
  ⟨rfl, rfl⟩

/-- C1: For every input sample sequence, the demo partitions it into the
consecutive non-overlapping spans of `chunks` in index order — spans of
exactly `BLOCK_SIZE` samples plus, when the total length is not a
multiple of `BLOCK_SIZE`, one final shorter span (of length
`len % BLOCK_SIZE`) — submits each span to `denoise` exactly once in
that order (one result per span), and the output written is the
concatenation, in call order, of the `samples` fields of the returned
`ProcessingResult`s; the concatenation of the submitted spans is the
input, so no sample is skipped or submitted twice. -/
theorem c1_span_partition {σ : Type} (args : List String) (fs : Dtln.FileSystem)
    (d : Dtln.Denoiser σ) (s0 : σ) (w : Dtln.WavWrite)
    (hs : (Dtln.mainRun args fs d s0).1 = .success w) :
    (Dtln.mainRun args fs d s0).2.submitted
      = Dtln.chunks (Dtln.readWav fs (args.getD 1 "")) ∧
    (Dtln.mainRun args fs d s0).2.submitted.flatten
      = Dtln.readWav fs (args.getD 1 "") ∧
    (∀ c ∈ (Dtln.mainRun args fs d s0).2.submitted.dropLast,
       c.length = Dtln.BLOCK_SIZE) ∧
    ((Dtln.readWav fs (args.getD 1 "")).length % Dtln.BLOCK_SIZE = 0 →
       ∀ c ∈ (Dtln.mainRun args fs d s0).2.submitted, c.length = Dtln.BLOCK_SIZE) ∧
    ((Dtln.readWav fs (args.getD 1 "")).length % Dtln.BLOCK_SIZE ≠ 0 →
       ((Dtln.mainRun args fs d s0).2.submitted.getLastD []).length
         = (Dtln.readWav fs (args.getD 1 "")).length % Dtln.BLOCK_SIZE) ∧
    (Dtln.mainRun args fs d s0).2.results.length
      = (Dtln.mainRun args fs d s0).2.submitted.length ∧
    w.samples = ((Dtln.mainRun args fs d s0).2.results.map (fun r => r.samples)).flatten := by
  obtain ⟨s2, hterm, hrate, hpath, hsub, hres, hstop, hread⟩ :=
    Dtln.mainRun_success_inv args fs d s0 w hs
  obtain ⟨h1, h2, h3⟩ :=
    Dtln.procLoop_ok d s0 (Dtln.readWav fs (args.getD 1 "")) w.samples s2 hterm
  rw [hsub, hres, h1]
  refine ⟨rfl, Dtln.chunks_flatten _, Dtln.chunks_dropLast_length _,
          Dtln.chunks_mod_zero _, Dtln.chunks_last_length _, ?_, h3⟩
  rw [← h1]
  exact h2

set_option maxRecDepth 100000 in
unseal Dtln.procLoop Dtln.chunks in
/-- Witness for C1 at a concrete three-sample run. -/
theorem c1_span_partition_witness :
    (Dtln.mainRun ["dtln", "in.wav", "out.wav"] Dtln.demoFs Dtln.okDenoiser ()).1
        = .success ⟨"out.wav", [3, 1, 2], 16000⟩ ∧
    (Dtln.mainRun ["dtln", "in.wav", "out.wav"] Dtln.demoFs Dtln.okDenoiser ()).2.submitted
        = Dtln.chunks (Dtln.readWav Dtln.demoFs (["dtln", "in.wav", "out.wav"].getD 1 "")) :=
  ⟨rfl,
   (c1_span_partition ["dtln", "in.wav", "out.wav"] Dtln.demoFs Dtln.okDenoiser ()
      ⟨"out.wav", [3, 1, 2], 16000⟩ rfl).1⟩

/-- C2 (spec-modelled): for every call pattern of the streaming API,
including ragged span sizes, every block handed to the Inference Engine
worker — the full blocks forwarded by `denoise` and the zero-padded tail
submitted by `stop()` — has length exactly `BLOCK_SIZE`; a partial tail
is zero-padded (at `stop()`) or deferred in the pending buffer, never
submitted short. -/
theorem c2_engine_block_size (spans : List (List Int)) :
    ∀ b ∈ Dtln.allSubmittedBlocks spans, b.length = Dtln.BLOCK_SIZE := by
  intro b hb
  unfold Dtln.allSubmittedBlocks at hb
  rcases List.mem_append.mp hb with hb | hb
  · exact Dtln.deferredRun_fst spans [] b hb
  · exact Dtln.stopFlush_mem _
      (Dtln.deferredRun_snd spans [] (by simp [Dtln.BLOCK_SIZE])) b hb

set_option maxRecDepth 100000 in
unseal Dtln.splitBlocks in
/-- Witness for C2: a ragged run of spans `[1,2]` then `[3]` submits a
single zero-padded block, and the theorem gives it length 1024. -/
theorem c2_engine_block_size_witness :
    ([1, 2, 3] ++ List.replicate (Dtln.BLOCK_SIZE - 3) 0).length = Dtln.BLOCK_SIZE :=
  c2_engine_block_size [[1, 2], [3]] ([1, 2, 3] ++ List.replicate (Dtln.BLOCK_SIZE - 3) 0)
    (by decide)

/-- C3: in the demo caller's loop, a full `BLOCK_SIZE`-sample `denoise`
call whose result has `processor_starved = true` makes the program
terminate by `panic!("Processor starved")` with no further span
submitted (it is the last result and the last submission); and the
final partial-span call's flag is never inspected: whatever
`processor_starved` the partial result `r` carries, the loop ends
normally with its samples. -/
theorem c3_starved_full_block_panics {σ : Type} (d : Dtln.Denoiser σ) (s : σ)
    (rest : List Int) :
    (∀ i, i < (Dtln.procLoop d s rest).results.length →
        ((Dtln.procLoop d s rest).submitted.getD i []).length = Dtln.BLOCK_SIZE →
        ((Dtln.procLoop d s rest).results.getD i ⟨[], false⟩).processor_starved = true →
        (Dtln.procLoop d s rest).term = .starved ∧
        i + 1 = (Dtln.procLoop d s rest).results.length ∧
        i + 1 = (Dtln.procLoop d s rest).submitted.length) ∧
    (∀ (r : Dtln.ProcessingResult) (s1 : σ), rest ≠ [] →
        rest.length < Dtln.BLOCK_SIZE → d s rest = some (r, s1) →
        Dtln.procLoop d s rest = ⟨[rest], [r], .ok r.samples s1⟩) :=
  ⟨Dtln.procLoop_starved_stops d s rest,
   fun r s1 h1 h2 hx => Dtln.procLoop_partial_some d s rest r s1 h1 h2 hx⟩

set_option maxRecDepth 100000 in
unseal Dtln.procLoop in
/-- Witness for C3: a starved full block of 1024 zeros panics at once;
a final partial span's starved flag is ignored and the loop ends
normally. -/
theorem c3_starved_full_block_panics_witness :
    ((Dtln.procLoop Dtln.starveDenoiser () (List.replicate 1024 0)).term = .starved ∧
     0 + 1 = (Dtln.procLoop Dtln.starveDenoiser () (List.replicate 1024 0)).results.length ∧
     0 + 1 = (Dtln.procLoop Dtln.starveDenoiser () (List.replicate 1024 0)).submitted.length) ∧
    Dtln.procLoop Dtln.starveDenoiser () [5] = ⟨[[5]], [⟨[5], true⟩], .ok [5] ()⟩ :=
  ⟨(c3_starved_full_block_panics Dtln.starveDenoiser () (List.replicate 1024 0)).1 0
     (by decide) (by decide) (by decide),
   (c3_starved_full_block_panics Dtln.starveDenoiser () [5]).2 ⟨[5], true⟩ ()
     (by simp) (by norm_num [Dtln.BLOCK_SIZE]) rfl⟩

/-- C4: for every invocation with exactly two positional arguments, both
paths are validated before any audio processing (the wav is not read and
nothing is submitted): if the input path does not name an existing
regular file, or either path's extension is not exactly `"wav"`, the run
terminates in a `check_is_wav` panic — a non-zero process exit. -/
theorem c4_path_validation {σ : Type} (args : List String) (fs : Dtln.FileSystem)
    (d : Dtln.Denoiser σ) (s0 : σ)
    (h3 : args.length = 3)
    (hv : fs (args.getD 1 "") = none ∨ fs (args.getD 1 "") = some .dir ∨
          Dtln.rustExtension (args.getD 1 "") ≠ some ("wav".toList) ∨
          Dtln.rustExtension (args.getD 2 "") ≠ some ("wav".toList)) :
    (Dtln.mainRun args fs d s0).1.isCheckPanic = true ∧
    (Dtln.mainRun args fs d s0).2.read_input = false ∧
    (Dtln.mainRun args fs d s0).2.submitted = [] ∧
    (Dtln.mainRun args fs d s0).2.stop_calls = 0 := by
  unfold Dtln.mainRun
  rw [if_neg (by omega)]
  dsimp only
  cases hc1 : Dtln.check_is_wav fs (args.getD 1 "") true with
  | ok =>
    obtain ⟨hne, hnd, hext⟩ := Dtln.check_is_wav_ok_true fs (args.getD 1 "") hc1
    dsimp only
    cases hc2 : Dtln.check_is_wav fs (args.getD 2 "") false with
    | ok =>
      exfalso
      have hext2 := Dtln.extCheck_ok (args.getD 2 "") hc2
      rcases hv with h | h | h | h
      · exact hne h
      · exact hnd h
      · exact h hext
      · exact h hext2
    | panicOpen => exact ⟨rfl, rfl, rfl, rfl⟩
    | panicNotFile => exact ⟨rfl, rfl, rfl, rfl⟩
    | panicNoExtension => exact ⟨rfl, rfl, rfl, rfl⟩
    | panicNotWav => exact ⟨rfl, rfl, rfl, rfl⟩
  | panicOpen => exact ⟨rfl, rfl, rfl, rfl⟩
  | panicNotFile => exact ⟨rfl, rfl, rfl, rfl⟩
  | panicNoExtension => exact ⟨rfl, rfl, rfl, rfl⟩
  | panicNotWav => exact ⟨rfl, rfl, rfl, rfl⟩

/-- Witness for C4: a missing input file on the empty filesystem. -/
theorem c4_path_validation_witness :
    (Dtln.mainRun ["dtln", "nofile.wav", "out.wav"] Dtln.emptyFs Dtln.okDenoiser ()).1.isCheckPanic
        = true ∧
    (Dtln.mainRun ["dtln", "nofile.wav", "out.wav"] Dtln.emptyFs Dtln.okDenoiser ()).2.read_input
        = false ∧
    (Dtln.mainRun ["dtln", "nofile.wav", "out.wav"] Dtln.emptyFs Dtln.okDenoiser ()).2.submitted
        = [] ∧
    (Dtln.mainRun ["dtln", "nofile.wav", "out.wav"] Dtln.emptyFs Dtln.okDenoiser ()).2.stop_calls
        = 0 :=
  c4_path_validation ["dtln", "nofile.wav", "out.wav"] Dtln.emptyFs Dtln.okDenoiser ()
    rfl (Or.inl rfl)

/-- C5: invoked with any argument count other than exactly 3 (program
name plus two positional arguments), the demo prints the usage message
and exits with code 1; the result is the same constant pair for every
filesystem, denoiser and state — no file is opened, nothing is read or
submitted, `stop` never runs. -/
theorem c5_usage_exit {σ : Type} (args : List String) (fs : Dtln.FileSystem)
    (d : Dtln.Denoiser σ) (s0 : σ) (h : args.length ≠ 3) :
    Dtln.mainRun args fs d s0 = (.usageExit, ⟨[], [], 0, false⟩) := by
  unfold Dtln.mainRun
  rw [if_pos h]

/-- Witness for C5 at an empty argument vector. -/
theorem c5_usage_exit_witness :
    Dtln.mainRun [] Dtln.demoFs Dtln.okDenoiser () = (.usageExit, ⟨[], [], 0, false⟩) :=
  c5_usage_exit [] Dtln.demoFs Dtln.okDenoiser () (by simp)

/-- C6: every wav the demo writes carries the fixed rate
`EXPECTED_SAMPLE_RATE` (16000 Hz), and the input file's recorded sample
rate is never used: overriding it with any value yields the identical
run (it is read into `_sample_rate` and dropped; nothing resamples). -/
theorem c6_fixed_output_rate {σ : Type} (args : List String) (fs : Dtln.FileSystem)
    (d : Dtln.Denoiser σ) (s0 : σ) (p : String) (rate : Nat) :
    (∀ w, (Dtln.mainRun args fs d s0).1 = .success w →
        w.sample_rate = Dtln.EXPECTED_SAMPLE_RATE) ∧
    Dtln.mainRun args (Dtln.setRate fs p rate) d s0 = Dtln.mainRun args fs d s0 := by
  constructor
  · intro w hw
    obtain ⟨_, _, hrate, _⟩ := Dtln.mainRun_success_inv args fs d s0 w hw
    exact hrate
  · unfold Dtln.mainRun
    by_cases h3 : args.length ≠ 3
    · rw [if_pos h3, if_pos h3]
    · rw [if_neg h3, if_neg h3]
      dsimp only
      rw [Dtln.check_is_wav_setRate, Dtln.check_is_wav_setRate, Dtln.readWav_setRate]

set_option maxRecDepth 100000 in
unseal Dtln.procLoop in
/-- Witness for C6 at a concrete run: 16000 in the written wav, and an
8000 Hz override of the input file changes nothing. -/
theorem c6_fixed_output_rate_witness :
    (Dtln.WavWrite.mk ("out.wav") [3, 1, 2] 16000).sample_rate = Dtln.EXPECTED_SAMPLE_RATE ∧
    Dtln.mainRun ["dtln", "in.wav", "out.wav"] (Dtln.setRate Dtln.demoFs ("in.wav") 8000)
        Dtln.okDenoiser ()
      = Dtln.mainRun ["dtln", "in.wav", "out.wav"] Dtln.demoFs Dtln.okDenoiser () :=
  ⟨(c6_fixed_output_rate ["dtln", "in.wav", "out.wav"] Dtln.demoFs Dtln.okDenoiser ()
      ("in.wav") 8000).1 ⟨"out.wav", [3, 1, 2], 16000⟩ rfl,
   (c6_fixed_output_rate ["dtln", "in.wav", "out.wav"] Dtln.demoFs Dtln.okDenoiser ()
      ("in.wav") 8000).2⟩

/-- C7 counterexample: with the archive present on Linux x86-64 and
`tar` running but exiting with status 1 (a failed extraction),
`build.rs` does not fall back to cmake — refuting the claim that a
cmake fallback happens "whenever the archive file is absent or
extraction fails". Only a failed spawn (`Err` from `status()`) triggers
the fallback. -/
theorem c7_fallback_counterexample :
    BuildRs.archive_name .linux .x86_64 = some ("tflite-prebuilt.linux.x64.tar.bz2") ∧
    (BuildRs.buildMain .linux .x86_64 ⟨fun _ => true, .ok 1⟩).extractionAttempted = true ∧
    (BuildRs.buildMain .linux .x86_64 ⟨fun _ => true, .ok 1⟩).cmakeCalled = false :=
  ⟨rfl, rfl, rfl⟩

/-- C7 (amended): for platforms with a designated prebuilt archive, the
build script attempts extraction when the archive file exists, and falls
back to the cmake build exactly when the archive file is absent or the
`tar` command cannot be spawned (`Command::status()` returns `Err`); a
`tar` process that runs and exits unsuccessfully does not trigger the
fallback. For platforms with no designated archive it always uses the
cmake build. -/
theorem c7_fallback_amended (os : BuildRs.Os) (arch : BuildRs.Arch)
    (env : BuildRs.BuildEnv) :
    (BuildRs.buildMain os arch env).cmakeCalled = true ↔
      (BuildRs.archive_name os arch = none ∨
       (∃ a, BuildRs.archive_name os arch = some a ∧
          (env.archiveExists ("./tflite/" ++ a) = false ∨ env.tar = .err))) := by
  cases ha : BuildRs.archive_name os arch with
  | none => simp [BuildRs.buildMain, ha]
  | some a =>
    unfold BuildRs.buildMain
    rw [ha]
    dsimp only
    by_cases he : env.archiveExists ("./tflite/" ++ a)
    · rw [if_pos he]
      cases ht : env.tar with
      | err => simp [he, ht]
      | ok c => simp [he, ht]
    · rw [if_neg he]
      simp only [Bool.not_eq_true] at he
      simp [he]

/-- Witness for C7 (amended): absent archive on macOS arm64 forces the
cmake fallback. -/
theorem c7_fallback_amended_witness :
    (BuildRs.buildMain .macos .aarch64 ⟨fun _ => false, .ok 0⟩).cmakeCalled = true :=
  (c7_fallback_amended .macos .aarch64 ⟨fun _ => false, .ok 0⟩).mpr
    (Or.inr ⟨"tflite-prebuilt.osx.arm64.tar.bz2", rfl, Or.inl rfl⟩)

/-- C9: `check_is_wav` is partial in its extension phase: a path with no
extension component panics on unwrapping `None` (`panicNoExtension`,
reached before the format comparison and distinct from the
format-validation panic); a path with extension `e` passes iff `e` is
exactly `"wav"` and panics with the format message iff `e ≠ "wav"` —
case-sensitively, so `"sound.WAV"` is rejected while `"foo"` dies on the
unwrap. -/
theorem c9_extension_partiality (fs : Dtln.FileSystem) (name : String) :
    (Dtln.rustExtension name = none →
        Dtln.check_is_wav fs name false = .panicNoExtension) ∧
    (∀ e, Dtln.rustExtension name = some e →
        (Dtln.check_is_wav fs name false = .ok ↔ e = "wav".toList) ∧
        (Dtln.check_is_wav fs name false = .panicNotWav ↔ e ≠ "wav".toList)) ∧
    Dtln.check_is_wav fs ("foo") false = .panicNoExtension ∧
    Dtln.check_is_wav fs ("sound.WAV") false = .panicNotWav := by
  refine ⟨?_, ?_, rfl, rfl⟩
  · intro h
    rw [Dtln.check_is_wav_false]
    unfold Dtln.extCheck
    rw [h]
  · intro e he
    constructor
    · rw [Dtln.check_is_wav_false]
      unfold Dtln.extCheck
      rw [he]
      dsimp only
      by_cases hw : e = "wav".toList
      · simp [hw]
      · simp [hw]
    · rw [Dtln.check_is_wav_false]
      unfold Dtln.extCheck
      rw [he]
      dsimp only
      by_cases hw : e = "wav".toList
      · simp [hw]
      · simp [hw]

/-- Witness for C9: `"noext"` dies on the unwrap; `"a.mp3"` reaches the
format comparison and is not accepted. -/
theorem c9_extension_partiality_witness :
    Dtln.check_is_wav Dtln.emptyFs ("noext") false = .panicNoExtension ∧
    (Dtln.check_is_wav Dtln.emptyFs ("a.mp3") false = .ok ↔ "mp3".toList = "wav".toList) :=
  ⟨(c9_extension_partiality Dtln.emptyFs ("noext")).1 rfl,
   ((c9_extension_partiality Dtln.emptyFs ("a.mp3")).2.1 ("mp3".toList) rfl).1⟩

/-- C10: on an input wav with zero samples the loop runs no iterations —
`denoise` is never called (no span submitted, no result), `stop` runs
exactly once — and the run succeeds, writing an empty wav at
`EXPECTED_SAMPLE_RATE` (16000 Hz) to the output path. -/
theorem c10_empty_input {σ : Type} (prog inp outp : String) (fs : Dtln.FileSystem)
    (d : Dtln.Denoiser σ) (s0 : σ) (rate : Nat)
    (hin : fs inp = some (.file ⟨[], rate⟩))
    (hext1 : Dtln.rustExtension inp = some ("wav".toList))
    (hext2 : Dtln.rustExtension outp = some ("wav".toList)) :
    Dtln.mainRun [prog, inp, outp] fs d s0 =
      (.success ⟨outp, [], Dtln.EXPECTED_SAMPLE_RATE⟩, ⟨[], [], 1, true⟩) := by
  have hc1 : Dtln.check_is_wav fs inp true = .ok := by
    unfold Dtln.check_is_wav
    rw [if_pos rfl, hin]
    unfold Dtln.extCheck
    rw [hext1]
    simp
  have hc2 : Dtln.check_is_wav fs outp false = .ok := by
    rw [Dtln.check_is_wav_false]
    unfold Dtln.extCheck
    rw [hext2]
    simp
  have hread : Dtln.readWav fs inp = [] := by
    unfold Dtln.readWav
    rw [hin]
  unfold Dtln.mainRun
  rw [if_neg (by simp)]
  dsimp only
  simp only [List.getD_cons_succ, List.getD_cons_zero]
  rw [hc1, hc2, hread, Dtln.procLoop_nil]

/-- Witness for C10 at a concrete empty 44100 Hz input wav. -/
theorem c10_empty_input_witness :
    Dtln.mainRun ["dtln", "empty.wav", "o.wav"] Dtln.emptyWavFs Dtln.okDenoiser () =
      (.success ⟨"o.wav", [], Dtln.EXPECTED_SAMPLE_RATE⟩, ⟨[], [], 1, true⟩) :=
  c10_empty_input ("dtln") ("empty.wav") ("o.wav") Dtln.emptyWavFs Dtln.okDenoiser () 44100
    rfl rfl rfl
